import Mathlib

/-!
Verification development for the Abacus Depreciation application.

The validation engine is embedded from `src/lib/validation.ts` (zod schemas
`AssetSchema`, `CategorySchema`, `DisposeSchema` and the wrappers
`validateAsset`, `validateCategory`, `validateDispose`, `zodErrorsToMap`).
The disposal gain/loss computation is embedded from
`src/components/views/AssetDetail.tsx`.  The straight-line schedule generator
lives in the Rust backend (`src-tauri/src/depreciation.rs`), which is not part
of the available sources; it is modelled from the spec where noted.

Modelling conventions:
* JavaScript numbers are modelled as rationals (`ℚ`); the claims under study
  concern order, sign and integrality, not bit-level float rounding.
  `Number.isInteger q` becomes `q.den = 1`.
* Date strings are modelled by a parser for the strict `YYYY-MM-DD` ISO form,
  which is the only form accepted by the source's `DATE_REGEX`; `new Date(s)`
  comparisons on strings outside that form are modelled as the NaN case
  (every comparison false), matching JavaScript for garbage strings.
* The current date ("today"), which the source reads via `new Date()` inside
  `isNotFutureDate`, is passed explicitly as a `SimpleDate` parameter so the
  clock dependence is visible in the embedding.
* zod issue collection: within an object, failing checks and refinements mark
  the parse "dirty" but do not abort it, so all field checks run and both
  object-level `.refine`s run afterwards even when field checks have already
  failed; a parse aborts (skipping refinements) only on a type-level
  mismatch, which cannot occur for the well-typed records modelled here.
  `safeParse` succeeds exactly when no issue was recorded.
-/

/-- A calendar date, used both for parsed date strings and for "today". -/
structure SimpleDate where
  year : Nat
  month : Nat
  day : Nat
deriving DecidableEq, Repr

/-- Gregorian leap-year rule, as implemented by JavaScript `Date`. -/
def isLeapYear (y : Nat) : Bool :=
  (y % 4 == 0 && y % 100 != 0) || (y % 400 == 0)

/-- Number of days in a month, as enforced by JavaScript ISO date parsing. -/
def daysInMonth (y m : Nat) : Nat :=
  if m = 2 then (if isLeapYear y then 29 else 28)
  else if m = 4 ∨ m = 6 ∨ m = 9 ∨ m = 11 then 30
  else 31

/-- Calendar order on dates; models comparison of UTC-midnight timestamps. -/
def dateLe (a b : SimpleDate) : Bool :=
  Nat.blt a.year b.year ||
    (a.year == b.year &&
      (Nat.blt a.month b.month || (a.month == b.month && Nat.ble a.day b.day)))

/-- Numeric value of a decimal digit character. -/
def digitVal (c : Char) : Option Nat :=
  if c.isDigit then some (c.toNat - 48) else none

/-- Two decimal digits. -/
def parse2 (a b : Char) : Option Nat := do
  let x ← digitVal a
  let y ← digitVal b
  pure (10 * x + y)

/-- Parse a `YYYY-MM-DD` string to a valid calendar date.  Models the
source's `DATE_REGEX` test combined with `new Date(dateStr)` validity
(month 1..12, day within the month, as modern JS ISO parsing enforces). -/
def parseDate (s : String) : Option SimpleDate :=
  match s.toList with
  | [a, b, c, d, h1, e, f, h2, g, i] =>
    if h1 = '-' ∧ h2 = '-' then
      match parse2 a b, parse2 c d, parse2 e f, parse2 g i with
      | some hi, some lo, some m, some dd =>
        let y := hi * 100 + lo
        if 1 ≤ m ∧ m ≤ 12 ∧ 1 ≤ dd ∧ dd ≤ daysInMonth y m then
          some ⟨y, m, dd⟩
        else none
      | _, _, _, _ => none
    else none
  | _ => none

/-- Embeds `isValidDate` from validation.ts: the regex matches and `new Date` yields
a real calendar date. -/
def isValidDate (s : String) : Bool :=
  (parseDate s).isSome

/-- Embeds `isNotFutureDate` from validation.ts: `new Date(dateStr) <= today` where
`today` is set to 23:59:59.999, so a date equal to today passes.  The source
obtains `today` from `new Date()` (the system clock); the embedding passes it
explicitly.  A string that does not parse gives `NaN <= today`, i.e. false. -/
def isNotFutureDate (s : String) (today : SimpleDate) : Bool :=
  match parseDate s with
  | some d => dateLe d today
  | none => false

/-- Comparison `new Date(x) <= new Date(y)` on two date strings, as used by the
cross-field refinements; false whenever either side fails to parse (NaN). -/
def jsDateLeStr (x y : String) : Bool :=
  match parseDate x, parseDate y with
  | some a, some b => dateLe a b
  | _, _ => false

/-- JavaScript `String.prototype.trim`: strip leading and trailing
whitespace.  Modelled directly on the character list. -/
def jsTrim (s : String) : String :=
  ⟨((s.data.dropWhile Char.isWhitespace).reverse.dropWhile
    Char.isWhitespace).reverse⟩

/-- A zod issue reduced to what `zodErrorsToMap` consumes: joined path and
message. -/
abbrev ErrorMap := List (String × String)

/-- Embeds `ValidationResult<T>` from validation.ts. -/
inductive VResult (α : Type) where
  | ok (data : α)
  | errs (errors : ErrorMap)
deriving DecidableEq, Repr

/-- The error map of a result (`{}` on success). -/
def VResult.errMap : VResult α → ErrorMap
  | .ok _ => []
  | .errs m => m

/-- Whether the result is a success. -/
def VResult.isOk : VResult α → Bool
  | .ok _ => true
  | .errs _ => false

/-- Embeds `zodErrorsToMap` from validation.ts: fold over the issues in order,
keeping only the first message for each path. -/
def zodErrorsToMap (issues : ErrorMap) : ErrorMap :=
  issues.foldl
    (fun errors i =>
      if (errors.find? (fun e => e.1 == i.1)).isSome then errors
      else errors ++ [i])
    []

/-- The `Asset` record from types.ts, as received by `AssetSchema.safeParse`. -/
structure AssetRec where
  id : Option Int
  name : String
  description : Option String
  category_id : Option Int
  date_placed_in_service : String
  cost : ℚ
  salvage_value : ℚ
  useful_life_years : ℚ
  property_class : Option String
  notes : Option String
  disposed_date : Option String
  disposed_value : Option ℚ
deriving DecidableEq, Repr

/-- Embeds `PROPERTY_CLASSES` from validation.ts. -/
def PROPERTY_CLASSES : List String :=
  ["3", "5", "7", "10", "15", "20", "27.5", "39"]

/-- Issues of `AssetSchema.name`: trim, then require non-empty, then the
200-character ceiling (both refinements run). -/
def nameIssues (name : String) : ErrorMap :=
  let t := jsTrim name
  (if t.length > 0 then [] else [("name", "Asset name is required")]) ++
  (if t.length ≤ 200 then [] else
    [("name", "Asset name must be 200 characters or less")])

/-- Issues of `AssetSchema.description`: optional, 500-character ceiling. -/
def descriptionIssues : Option String → ErrorMap
  | none => []
  | some s =>
    if s.length ≤ 500 then [] else
      [("description", "Description must be 500 characters or less")]

/-- Issues of `AssetSchema.date_placed_in_service`: required, must satisfy
`isValidDate`, must satisfy `isNotFutureDate`; every failing check records an
issue. -/
def datePlacedIssues (s : String) (today : SimpleDate) : ErrorMap :=
  (if 1 ≤ s.length then [] else
    [("date_placed_in_service", "Date placed in service is required")]) ++
  (if isValidDate s then [] else
    [("date_placed_in_service", "Invalid date format (use YYYY-MM-DD)")]) ++
  (if isNotFutureDate s today then [] else
    [("date_placed_in_service", "Date cannot be in the future")])

/-- Issues of `AssetSchema.cost`: `gt(0)`. -/
def costIssues (cost : ℚ) : ErrorMap :=
  if 0 < cost then [] else [("cost", "Cost must be greater than $0")]

/-- Issues of `AssetSchema.salvage_value`: `min(0)`. -/
def salvageIssues (salvage : ℚ) : ErrorMap :=
  if 0 ≤ salvage then [] else
    [("salvage_value", "Salvage value cannot be negative")]

/-- Issues of `AssetSchema.useful_life_years`: `int()` then `min(1)`,
both checks run and collect. -/
def usefulLifeIssues (q : ℚ) : ErrorMap :=
  (if q.den = 1 then [] else
    [("useful_life_years", "Useful life must be a whole number")]) ++
  (if 1 ≤ q then [] else
    [("useful_life_years", "Useful life must be at least 1 year")])

/-- Issues of `AssetSchema.property_class`: optional; the empty string is
falsy in JS and passes; otherwise membership in `PROPERTY_CLASSES`. -/
def propertyClassIssues : Option String → ErrorMap
  | none => []
  | some v =>
    if v = "" ∨ v ∈ PROPERTY_CLASSES then [] else
      [("property_class", "Invalid property class")]

/-- Issues of `AssetSchema.notes`: optional, 2000-character ceiling. -/
def notesIssues : Option String → ErrorMap
  | none => []
  | some s =>
    if s.length ≤ 2000 then [] else
      [("notes", "Notes must be 2000 characters or less")]

/-- Issues of `AssetSchema.disposed_date`: optional; each refinement treats a
falsy (empty) string as passing. -/
def disposedDateIssues (o : Option String) (today : SimpleDate) : ErrorMap :=
  match o with
  | none => []
  | some v =>
    (if v = "" ∨ isValidDate v then [] else
      [("disposed_date", "Invalid disposal date format")]) ++
    (if v = "" ∨ isNotFutureDate v today then [] else
      [("disposed_date", "Disposal date cannot be in the future")])

/-- Issues of `AssetSchema.disposed_value`: optional, `min(0)`. -/
def disposedValueIssues : Option ℚ → ErrorMap
  | none => []
  | some v =>
    if 0 ≤ v then [] else
      [("disposed_value", "Disposal value cannot be negative")]

/-- First object-level refinement of `AssetSchema`:
`salvage_value <= cost`, reported under `salvage_value`. -/
def salvageLeCostIssues (a : AssetRec) : ErrorMap :=
  if a.salvage_value ≤ a.cost then [] else
    [("salvage_value", "Salvage value cannot exceed cost")]

/-- Second object-level refinement of `AssetSchema`: when `disposed_date` is
truthy, `new Date(disposed) >= new Date(service)`, reported under
`disposed_date`. -/
def disposedAfterServiceIssues (a : AssetRec) : ErrorMap :=
  match a.disposed_date with
  | none => []
  | some v =>
    if v = "" then []
    else if jsDateLeStr a.date_placed_in_service v then []
    else
      [("disposed_date",
        "Disposal date must be on or after the date placed in service")]

/-- All issues recorded by `AssetSchema.safeParse`, in execution order:
fields in shape order, then the two object-level refinements.  Both
refinements run even when field checks failed, because field-check failures
leave the object parse dirty, not aborted. -/
def assetIssues (a : AssetRec) (today : SimpleDate) : ErrorMap :=
  nameIssues a.name ++
  descriptionIssues a.description ++
  datePlacedIssues a.date_placed_in_service today ++
  costIssues a.cost ++
  salvageIssues a.salvage_value ++
  usefulLifeIssues a.useful_life_years ++
  propertyClassIssues a.property_class ++
  notesIssues a.notes ++
  disposedDateIssues a.disposed_date today ++
  disposedValueIssues a.disposed_value ++
  salvageLeCostIssues a ++
  disposedAfterServiceIssues a

/-- Models `s?.trim() || undefined`: trim an optional string, turning an empty
result into `none`. -/
def trimOrNone : Option String → Option String
  | none => none
  | some s =>
    let t := jsTrim s
    if t = "" then none else some t

/-- The transforms `AssetSchema` applies on success: `name` is trimmed,
`description` and `notes` are trimmed-or-dropped. -/
def transformAsset (a : AssetRec) : AssetRec :=
  { a with
    name := jsTrim a.name
    description := trimOrNone a.description
    notes := trimOrNone a.notes }

/-- Embeds `validateAsset` from validation.ts.  `today` is the current date that the
source reads from the system clock inside `isNotFutureDate`. -/
def validateAsset (a : AssetRec) (today : SimpleDate) : VResult AssetRec :=
  if assetIssues a today = [] then .ok (transformAsset a)
  else .errs (zodErrorsToMap (assetIssues a today))

/-- The `Category` record from types.ts. -/
structure CategoryRec where
  id : Option Int
  name : String
  default_useful_life : Option ℚ
  default_property_class : Option String
deriving DecidableEq, Repr

/-- Issues of `CategorySchema.name`. -/
def categoryNameIssues (name : String) : ErrorMap :=
  let t := jsTrim name
  (if t.length > 0 then [] else [("name", "Category name is required")]) ++
  (if t.length ≤ 100 then [] else
    [("name", "Category name must be 100 characters or less")])

/-- Issues of `CategorySchema.default_useful_life`: optional `int().min(1)`. -/
def defaultLifeIssues : Option ℚ → ErrorMap
  | none => []
  | some q =>
    (if q.den = 1 then [] else
      [("default_useful_life", "Default useful life must be a whole number")]) ++
    (if 1 ≤ q then [] else
      [("default_useful_life", "Default useful life must be at least 1 year")])

/-- Issues of `CategorySchema.default_property_class`. -/
def defaultClassIssues : Option String → ErrorMap
  | none => []
  | some v =>
    if v = "" ∨ v ∈ PROPERTY_CLASSES then [] else
      [("default_property_class", "Invalid property class")]

/-- All issues recorded by `CategorySchema.safeParse`, in shape order. -/
def categoryIssues (c : CategoryRec) : ErrorMap :=
  categoryNameIssues c.name ++
  defaultLifeIssues c.default_useful_life ++
  defaultClassIssues c.default_property_class

/-- Embeds `validateCategory` from validation.ts. -/
def validateCategory (c : CategoryRec) : VResult CategoryRec :=
  if categoryIssues c = [] then .ok { c with name := jsTrim c.name }
  else .errs (zodErrorsToMap (categoryIssues c))

/-- The success payload of `validateDispose`. -/
structure DisposalData where
  disposed_date : String
  disposed_value : Option ℚ
deriving DecidableEq, Repr

/-- All issues recorded by `DisposeSchema.safeParse`: the `disposed_date`
chain (required, valid, not future), the optional `disposed_value` floor, and
the object-level refinement `new Date(disposed) >= new Date(service)` which
runs even when the field checks failed. -/
def disposeIssues (dd : String) (dv : Option ℚ) (svc : String)
    (today : SimpleDate) : ErrorMap :=
  (if 1 ≤ dd.length then [] else [("disposed_date", "Disposal date is required")]) ++
  (if isValidDate dd then [] else [("disposed_date", "Invalid date format")]) ++
  (if isNotFutureDate dd today then [] else
    [("disposed_date", "Disposal date cannot be in the future")]) ++
  (match dv with
   | none => []
   | some v =>
     if 0 ≤ v then [] else
       [("disposed_value", "Disposal value cannot be negative")]) ++
  (if jsDateLeStr svc dd then [] else
    [("disposed_date",
      "Disposal date must be on or after the date placed in service")])

/-- Embeds `validateDispose` from validation.ts. -/
def validateDispose (disposedDate : String) (disposedValue : Option ℚ)
    (datePlacedInService : String) (today : SimpleDate) :
    VResult DisposalData :=
  if disposeIssues disposedDate disposedValue datePlacedInService today = [] then
    .ok ⟨disposedDate, disposedValue⟩
  else .errs (zodErrorsToMap (disposeIssues disposedDate disposedValue datePlacedInService today))

/-- Embeds `DepreciationEntry` from types.ts: one ledger row per (asset, year). -/
structure Entry where
  year : Int
  beginning_book_value : ℚ
  depreciation_expense : ℚ
  accumulated_depreciation : ℚ
  ending_book_value : ℚ
deriving DecidableEq, Repr

/-- Modelled from the spec: the per-year loop of `generate_schedule` in the
Rust backend (`src-tauri/src/depreciation.rs`, not among the available
sources).  `k` is the number of years still to emit; the final scheduled year
(`k = 1`) has its expense forced to `beginning_book_value - salvage` instead
of the annual expense; each year's accumulated depreciation adds the year's
expense and its ending book value subtracts it, and the next year starts from
this year's ending book value. -/
def genRows (salvage annual : ℚ) : Nat → Int → ℚ → ℚ → List Entry
  | 0, _, _, _ => []
  | k + 1, yr, bv, accum =>
    let expense := if k = 0 then bv - salvage else annual
    let accum2 := accum + expense
    let ending := bv - expense
    { year := yr
      beginning_book_value := bv
      depreciation_expense := expense
      accumulated_depreciation := accum2
      ending_book_value := ending } ::
      genRows salvage annual k (yr + 1) ending accum2

/-- Modelled from the spec: `generate_schedule` of the missing Rust backend.
`annual_expense = (cost - salvage_value) / useful_life_years`, computed once
and held at full precision; the first year begins at `cost` with zero
accumulated depreciation, starting at the calendar year of
`date_placed_in_service`. -/
def generateSchedule (cost salvage : ℚ) (life : Nat) (startYear : Int) :
    List Entry :=
  genRows salvage ((cost - salvage) / (life : ℚ)) life startYear cost 0

/-- The financial parameters of a validated asset that drive the schedule,
with `serviceYear` the calendar year of `date_placed_in_service` and
`disposedYear` the calendar year of `disposed_date` when set. -/
structure AssetFin where
  cost : ℚ
  salvage : ℚ
  life : Nat
  serviceYear : Int
  disposedYear : Option Int
  disposedValue : Option ℚ
deriving DecidableEq, Repr

/-- Modelled from the spec: schedule generation for an asset in the missing
Rust backend.  The schedule is generated in full; when `disposed_date` is
set, every entry for a year strictly after the disposal year is discarded and
the disposal year's entry is retained unmodified. -/
def generateAssetSchedule (a : AssetFin) : List Entry :=
  let full := generateSchedule a.cost a.salvage a.life a.serviceYear
  match a.disposedYear with
  | some dy => full.filter (fun e => decide (e.year ≤ dy))
  | none => full

/-- Setting the disposal fields of an asset (the lifecycle coordinator's
`dispose` operation on the record). -/
def disposeAsset (a : AssetFin) (dy : Int) (dv : Option ℚ) : AssetFin :=
  { a with disposedYear := some dy, disposedValue := dv }

/-- Clearing the disposal fields (the `reinstate` operation on the record). -/
def reinstateAsset (a : AssetFin) : AssetFin :=
  { a with disposedYear := none, disposedValue := none }

/-- Embeds `bookValueAtDisposal` from AssetDetail.tsx: the beginning book value of
the schedule entry whose year is the disposal year, else the last entry's
ending book value, else the asset's salvage value. -/
def bookValueAtDisposal (schedule : List Entry) (disposalYear : Int)
    (salvage : ℚ) : ℚ :=
  match schedule.find? (fun s => s.year == disposalYear) with
  | some e => e.beginning_book_value
  | none =>
    match schedule.getLast? with
    | some last => last.ending_book_value
    | none => salvage

/-- Embeds `gainLoss` from AssetDetail.tsx: `(disposed_value ?? 0) -
bookValueAtDisposal`. -/
def gainLoss (disposedValue : Option ℚ) (schedule : List Entry)
    (disposalYear : Int) (salvage : ℚ) : ℚ :=
  disposedValue.getD 0 - bookValueAtDisposal schedule disposalYear salvage

/-- "Otherwise valid" for the salvage-value claims: every `AssetSchema`
check except the two salvage-value rules records no issue. -/
abbrev otherFieldsOkForSalvage (a : AssetRec) (t : SimpleDate) : Prop :=
  nameIssues a.name = [] ∧
  descriptionIssues a.description = [] ∧
  datePlacedIssues a.date_placed_in_service t = [] ∧
  costIssues a.cost = [] ∧
  usefulLifeIssues a.useful_life_years = [] ∧
  propertyClassIssues a.property_class = [] ∧
  notesIssues a.notes = [] ∧
  disposedDateIssues a.disposed_date t = [] ∧
  disposedValueIssues a.disposed_value = [] ∧
  disposedAfterServiceIssues a = []

/-- "Otherwise valid" for the useful-life claims: every `AssetSchema` check
except the `useful_life_years` rules records no issue. -/
abbrev otherFieldsOkForLife (a : AssetRec) (t : SimpleDate) : Prop :=
  nameIssues a.name = [] ∧
  descriptionIssues a.description = [] ∧
  datePlacedIssues a.date_placed_in_service t = [] ∧
  costIssues a.cost = [] ∧
  salvageIssues a.salvage_value = [] ∧
  propertyClassIssues a.property_class = [] ∧
  notesIssues a.notes = [] ∧
  disposedDateIssues a.disposed_date t = [] ∧
  disposedValueIssues a.disposed_value = [] ∧
  salvageLeCostIssues a = [] ∧
  disposedAfterServiceIssues a = []

/-- A well-formed asset record used for concrete instantiations. -/
def sampleAsset : AssetRec :=
  { id := none
    name := "Laptop"
    description := none
    category_id := none
    date_placed_in_service := "2024-01-15"
    cost := 1000
    salvage_value := 100
    useful_life_years := 5
    property_class := none
    notes := none
    disposed_date := none
    disposed_value := none }

/-! ### Helper lemmas about the schedule generator -/

theorem genRows_cons (s a : ℚ) (k : Nat) (yr : Int) (bv ac : ℚ) :
    genRows s a (k + 1) yr bv ac =
      { year := yr
        beginning_book_value := bv
        depreciation_expense := if k = 0 then bv - s else a
        accumulated_depreciation := ac + (if k = 0 then bv - s else a)
        ending_book_value := bv - (if k = 0 then bv - s else a) } ::
        genRows s a k (yr + 1) (bv - (if k = 0 then bv - s else a))
          (ac + (if k = 0 then bv - s else a)) :=
  rfl

theorem genRows_ne_nil (s a : ℚ) (k : Nat) (hk : 0 < k) (yr : Int)
    (bv ac : ℚ) : genRows s a k yr bv ac ≠ [] := by
  cases k with
  | zero => omega
  | succ n => rw [genRows_cons]; exact List.cons_ne_nil _ _

theorem getLast?_cons_of_ne_nil {α : Type} (a : α) {l : List α}
    (h : l ≠ []) : (a :: l).getLast? = l.getLast? := by
  cases l with
  | nil => exact absurd rfl h
  | cons b t => exact List.getLast?_cons_cons

theorem genRows_getLast (s a : ℚ) :
    ∀ (k : Nat), 0 < k → ∀ (yr : Int) (bv ac : ℚ),
      ∃ e, (genRows s a k yr bv ac).getLast? = some e ∧
        e.depreciation_expense = e.beginning_book_value - s ∧
        e.ending_book_value = s := by
  intro k
  induction k with
  | zero => omega
  | succ n ih =>
    intro _ yr bv ac
    cases n with
    | zero =>
      refine ⟨{ year := yr
                beginning_book_value := bv
                depreciation_expense := bv - s
                accumulated_depreciation := ac + (bv - s)
                ending_book_value := bv - (bv - s) }, ?_, ?_, ?_⟩
      · rw [genRows_cons]; simp [genRows]
      · rfl
      · simp
    | succ m =>
      obtain ⟨e, he, h1, h2⟩ := ih (Nat.succ_pos m) (yr + 1)
        (bv - a) (ac + a)
      refine ⟨e, ?_, h1, h2⟩
      rw [genRows_cons]
      simp only [Nat.succ_ne_zero, if_false]
      rw [getLast?_cons_of_ne_nil _ (genRows_ne_nil s a (m + 1) (Nat.succ_pos m) _ _ _)]
      exact he

theorem genRows_mem_ending (s a : ℚ) :
    ∀ (k : Nat) (yr : Int) (bv ac : ℚ), ∀ e ∈ genRows s a k yr bv ac,
      e.ending_book_value = e.beginning_book_value - e.depreciation_expense := by
  intro k
  induction k with
  | zero => intro yr bv ac e he; simp [genRows] at he
  | succ n ih =>
    intro yr bv ac e he
    rw [genRows_cons] at he
    rcases List.mem_cons.mp he with h | h
    · subst h; rfl
    · exact ih (yr + 1) _ _ e h

theorem genRows_mem_accum (s a : ℚ) :
    ∀ (k : Nat) (yr : Int) (bv ac : ℚ), ∀ e ∈ genRows s a k yr bv ac,
      e.accumulated_depreciation = ac + (bv - e.ending_book_value) := by
  intro k
  induction k with
  | zero => intro yr bv ac e he; simp [genRows] at he
  | succ n ih =>
    intro yr bv ac e he
    rw [genRows_cons] at he
    rcases List.mem_cons.mp he with h | h
    · subst h; simp
    · have := ih (yr + 1) _ _ e h
      rw [this]; ring

theorem genRows_mem_year_bounds (s a : ℚ) :
    ∀ (k : Nat) (yr : Int) (bv ac : ℚ), ∀ e ∈ genRows s a k yr bv ac,
      yr ≤ e.year ∧ e.year < yr + k := by
  intro k
  induction k with
  | zero => intro yr bv ac e he; simp [genRows] at he
  | succ n ih =>
    intro yr bv ac e he
    rw [genRows_cons] at he
    rcases List.mem_cons.mp he with h | h
    · subst h; dsimp only; constructor
      · exact le_refl yr
      · push_cast; omega
    · obtain ⟨h1, h2⟩ := ih (yr + 1) _ _ e h
      constructor
      · omega
      · push_cast at h2 ⊢; omega

theorem genRows_exists_year (s a : ℚ) :
    ∀ (k : Nat) (yr : Int) (bv ac : ℚ) (dy : Int), yr ≤ dy → dy < yr + k →
      ∃ e ∈ genRows s a k yr bv ac, e.year = dy := by
  intro k
  induction k with
  | zero => intro yr bv ac dy h1 h2; omega
  | succ n ih =>
    intro yr bv ac dy h1 h2
    rw [genRows_cons]
    by_cases hy : dy = yr
    · exact ⟨_, List.mem_cons_self _ _, hy.symm⟩
    · have h1' : yr + 1 ≤ dy := by omega
      have h2' : dy < (yr + 1) + n := by push_cast at h2 ⊢; omega
      obtain ⟨e, he, hey⟩ := ih (yr + 1) _ _ dy h1' h2'
      exact ⟨e, List.mem_cons_of_mem _ he, hey⟩

theorem genRows_expense_nonneg (s a : ℚ) (ha : 0 ≤ a) :
    ∀ (k : Nat) (yr : Int) (bv ac : ℚ), bv = s + a * k →
      ∀ e ∈ genRows s a k yr bv ac, 0 ≤ e.depreciation_expense := by
  intro k
  induction k with
  | zero => intro yr bv ac _ e he; simp [genRows] at he
  | succ n ih =>
    intro yr bv ac hbv e he
    rw [genRows_cons] at he
    rcases List.mem_cons.mp he with h | h
    · subst h
      by_cases hn : n = 0
      · subst hn
        simp only [if_pos rfl]
        have : bv - s = a := by rw [hbv]; push_cast; ring
        rw [this]; exact ha
      · simp only [if_neg hn]; exact ha
    · cases n with
      | zero => simp [genRows] at h
      | succ m =>
        have hne : ¬ (m + 1 = 0) := Nat.succ_ne_zero m
        simp only [hne, if_false] at h
        refine ih (yr + 1) (bv - a) _ ?_ e h
        rw [hbv]; push_cast; ring

theorem genRows_chain_master (s a : ℚ) (ha : 0 ≤ a) :
    ∀ (k : Nat) (yr : Int) (bv ac : ℚ), bv = s + a * k →
      (genRows s a k yr bv ac).Chain' (fun e1 e2 =>
        e2.year = e1.year + 1 ∧
        e2.beginning_book_value = e1.ending_book_value ∧
        e1.accumulated_depreciation ≤ e2.accumulated_depreciation) := by
  intro k
  induction k with
  | zero => intro yr bv ac _; simp [genRows]
  | succ n ih =>
    intro yr bv ac hbv
    rw [genRows_cons]
    apply List.chain'_cons'.mpr
    constructor
    · intro y hy
      cases n with
      | zero => simp [genRows] at hy
      | succ m =>
        simp only [Nat.succ_ne_zero, if_false] at hy ⊢
        rw [genRows_cons] at hy
        simp only [List.head?_cons, Option.mem_def, Option.some.injEq] at hy
        subst hy
        refine ⟨rfl, rfl, ?_⟩
        dsimp only
        have hnn : 0 ≤ (if m = 0 then bv - a - s else a) := by
          by_cases hm : m = 0
          · subst hm
            rw [if_pos rfl]
            have hbva : bv - a - s = a := by rw [hbv]; push_cast; ring
            rw [hbva]; exact ha
          · rw [if_neg hm]; exact ha
        linarith
    · cases n with
      | zero => simp [genRows]
      | succ m =>
        simp only [Nat.succ_ne_zero, if_false]
        refine ih (yr + 1) (bv - a) _ ?_
        rw [hbv]; push_cast; ring

/-! ### Claims about the schedule generator (modelled from the spec) -/

/-- C1: for every valid asset (cost > 0, 0 ≤ salvage ≤ cost, positive
integer useful life) the generated schedule's final entry has
`ending_book_value` exactly equal to `salvage_value`, because the final
scheduled year's expense is forced to `beginning_book_value - salvage_value`
rather than the annual expense. -/
theorem schedule_final_entry_equals_salvage (c s : ℚ) (l : Nat) (y0 : Int)
    (hc : 0 < c) (hs0 : 0 ≤ s) (hsc : s ≤ c) (hl : 1 ≤ l) :
    ∃ e, (generateSchedule c s l y0).getLast? = some e ∧
      e.depreciation_expense = e.beginning_book_value - s ∧
      e.ending_book_value = s :=
  genRows_getLast s ((c - s) / (l : ℚ)) l hl y0 c 0

/-- Witness for C1 at the spec's scenario: cost 2000, salvage 200, life 5,
service year 2022. -/
theorem schedule_final_entry_equals_salvage_witness :
    ∃ e, (generateSchedule 2000 200 5 2022).getLast? = some e ∧
      e.depreciation_expense = e.beginning_book_value - 200 ∧
      e.ending_book_value = 200 :=
  schedule_final_entry_equals_salvage 2000 200 5 2022 (by norm_num)
    (by norm_num) (by norm_num) (by norm_num)

/-- C2: the generated schedule satisfies the ledger invariant: entries are
contiguous integer years starting at the service year; every entry has
`ending_book_value = beginning_book_value - depreciation_expense`;
consecutive entries satisfy `beginning_book_value[y+1] = ending_book_value[y]`;
and `accumulated_depreciation` is monotonically non-decreasing and equals
cost minus ending book value. -/
theorem schedule_ledger_invariant (c s : ℚ) (l : Nat) (y0 : Int)
    (hs0 : 0 ≤ s) (hsc : s ≤ c) (hl : 1 ≤ l) :
    (generateSchedule c s l y0).head?.map Entry.year = some y0 ∧
    (generateSchedule c s l y0).Chain' (fun e1 e2 =>
      e2.year = e1.year + 1 ∧
      e2.beginning_book_value = e1.ending_book_value) ∧
    (∀ e ∈ generateSchedule c s l y0,
      e.ending_book_value = e.beginning_book_value - e.depreciation_expense) ∧
    (∀ e ∈ generateSchedule c s l y0,
      e.accumulated_depreciation = c - e.ending_book_value) ∧
    (generateSchedule c s l y0).Chain' (fun e1 e2 =>
      e1.accumulated_depreciation ≤ e2.accumulated_depreciation) := by
  have hl0 : ((l : ℚ)) ≠ 0 := by
    have : (0 : ℚ) < (l : ℚ) := by exact_mod_cast hl
    exact ne_of_gt this
  have ha : 0 ≤ (c - s) / (l : ℚ) := by
    apply div_nonneg (by linarith)
    exact_mod_cast Nat.zero_le l
  have hbv : c = s + ((c - s) / (l : ℚ)) * (l : ℚ) := by
    rw [div_mul_cancel₀ _ hl0]; ring
  have hmaster := genRows_chain_master s ((c - s) / (l : ℚ)) ha l y0 c 0 hbv
  refine ⟨?_, ?_, ?_, ?_, ?_⟩
  · cases l with
    | zero => omega
    | succ n =>
      rw [generateSchedule, genRows_cons]
      rfl
  · exact hmaster.imp (fun e1 e2 h => ⟨h.1, h.2.1⟩)
  · exact genRows_mem_ending s _ l y0 c 0
  · intro e he
    have := genRows_mem_accum s ((c - s) / (l : ℚ)) l y0 c 0 e he
    rw [this]; ring
  · exact hmaster.imp (fun e1 e2 h => h.2.2)

/-- Witness for C2 at cost 2000, salvage 200, life 5, service year 2022. -/
theorem schedule_ledger_invariant_witness :
    (generateSchedule 2000 200 5 2022).head?.map Entry.year = some 2022 ∧
    (generateSchedule 2000 200 5 2022).Chain' (fun e1 e2 =>
      e2.year = e1.year + 1 ∧
      e2.beginning_book_value = e1.ending_book_value) ∧
    (∀ e ∈ generateSchedule 2000 200 5 2022,
      e.ending_book_value = e.beginning_book_value - e.depreciation_expense) ∧
    (∀ e ∈ generateSchedule 2000 200 5 2022,
      e.accumulated_depreciation = 2000 - e.ending_book_value) ∧
    (generateSchedule 2000 200 5 2022).Chain' (fun e1 e2 =>
      e1.accumulated_depreciation ≤ e2.accumulated_depreciation) :=
  schedule_ledger_invariant 2000 200 5 2022 (by norm_num) (by norm_num)
    (by norm_num)

/-- C3: disposing an asset truncates the generated schedule to exactly the
entries with year ≤ the disposal year (the disposal year's entry retained
unmodified, as filtering preserves members), and reinstating (clearing the
disposal fields) regenerates a schedule identical to the original
full-length schedule. -/
theorem dispose_truncates_and_reinstate_restores (a : AssetFin) (dy : Int)
    (dv : Option ℚ) (h : a.disposedYear = none) :
    generateAssetSchedule (disposeAsset a dy dv) =
      (generateAssetSchedule a).filter (fun e => decide (e.year ≤ dy)) ∧
    (∀ e ∈ generateAssetSchedule a, e.year ≤ dy →
      e ∈ generateAssetSchedule (disposeAsset a dy dv)) ∧
    generateAssetSchedule (reinstateAsset (disposeAsset a dy dv)) =
      generateAssetSchedule a := by
  refine ⟨?_, ?_, ?_⟩
  · simp [generateAssetSchedule, disposeAsset, h]
  · intro e he hy
    simp only [generateAssetSchedule, disposeAsset, h] at he ⊢
    exact List.mem_filter.mpr ⟨he, by simpa using hy⟩
  · simp [generateAssetSchedule, disposeAsset, reinstateAsset, h]

/-- Witness for C3: a 5-year asset from 2022 disposed in 2024. -/
theorem dispose_truncates_and_reinstate_restores_witness :
    generateAssetSchedule (disposeAsset ⟨2000, 200, 5, 2022, none, none⟩ 2024 (some 700)) =
      (generateAssetSchedule ⟨2000, 200, 5, 2022, none, none⟩).filter
        (fun e => decide (e.year ≤ 2024)) ∧
    (∀ e ∈ generateAssetSchedule ⟨2000, 200, 5, 2022, none, none⟩, e.year ≤ 2024 →
      e ∈ generateAssetSchedule
        (disposeAsset ⟨2000, 200, 5, 2022, none, none⟩ 2024 (some 700))) ∧
    generateAssetSchedule
        (reinstateAsset (disposeAsset ⟨2000, 200, 5, 2022, none, none⟩ 2024 (some 700))) =
      generateAssetSchedule ⟨2000, 200, 5, 2022, none, none⟩ :=
  dispose_truncates_and_reinstate_restores ⟨2000, 200, 5, 2022, none, none⟩
    2024 (some 700) rfl

/-- C9: for a disposed asset, the book value at disposal computed by
AssetDetail.tsx is the `beginning_book_value` of the schedule entry whose
year equals the disposal year, or the last entry's `ending_book_value` when
the disposal year is beyond the schedule, and the reported gain/loss is
`disposed_value` minus that book value. -/
theorem book_value_at_disposal_and_gain_loss (c s : ℚ) (l : Nat)
    (y0 dy : Int) (dv : ℚ) (hl : 1 ≤ l) (hdy : y0 ≤ dy) :
    (dy < y0 + l → ∃ e ∈ generateSchedule c s l y0, e.year = dy ∧
      bookValueAtDisposal (generateSchedule c s l y0) dy s =
        e.beginning_book_value) ∧
    (y0 + l ≤ dy → ∃ e, (generateSchedule c s l y0).getLast? = some e ∧
      bookValueAtDisposal (generateSchedule c s l y0) dy s =
        e.ending_book_value) ∧
    gainLoss (some dv) (generateSchedule c s l y0) dy s =
      dv - bookValueAtDisposal (generateSchedule c s l y0) dy s := by
  refine ⟨?_, ?_, ?_⟩
  · intro hin
    obtain ⟨e0, he0, hy0⟩ :=
      genRows_exists_year s ((c - s) / (l : ℚ)) l y0 c 0 dy hdy hin
    have hsome : ((generateSchedule c s l y0).find?
        (fun e => e.year == dy)).isSome := by
      apply List.find?_isSome.mpr
      exact ⟨e0, he0, by simp [hy0]⟩
    obtain ⟨e, he⟩ := Option.isSome_iff_exists.mp hsome
    refine ⟨e, List.mem_of_find?_eq_some he, ?_, ?_⟩
    · have := List.find?_some he
      simpa using this
    · rw [bookValueAtDisposal, he]
  · intro hout
    have hnone : (generateSchedule c s l y0).find?
        (fun e => e.year == dy) = none := by
      apply List.find?_eq_none.mpr
      intro e he
      have hb := genRows_mem_year_bounds s ((c - s) / (l : ℚ)) l y0 c 0 e he
      simp only [beq_iff_eq]
      omega
    have hne : generateSchedule c s l y0 ≠ [] :=
      genRows_ne_nil s ((c - s) / (l : ℚ)) l hl y0 c 0
    rcases hlast : (generateSchedule c s l y0).getLast? with _ | e
    · exact absurd (List.getLast?_eq_none_iff.mp hlast) hne
    · refine ⟨e, rfl, ?_⟩
      rw [bookValueAtDisposal, hnone, hlast]
  · rw [gainLoss]; rfl

/-- Witness for C9 at the spec's scenario: 5-year schedule for cost 2000,
salvage 200 from 2022, disposed in its fourth year (2025) where the
beginning book value is 920, with proceeds 700, giving a loss of −220. -/
theorem book_value_at_disposal_and_gain_loss_witness :
    ((2025 : Int) < 2022 + (5 : Nat) →
      ∃ e ∈ generateSchedule 2000 200 5 2022, e.year = 2025 ∧
        bookValueAtDisposal (generateSchedule 2000 200 5 2022) 2025 200 =
          e.beginning_book_value) ∧
    ((2022 : Int) + (5 : Nat) ≤ 2025 →
      ∃ e, (generateSchedule 2000 200 5 2022).getLast? = some e ∧
        bookValueAtDisposal (generateSchedule 2000 200 5 2022) 2025 200 =
          e.ending_book_value) ∧
    gainLoss (some 700) (generateSchedule 2000 200 5 2022) 2025 200 =
      700 - bookValueAtDisposal (generateSchedule 2000 200 5 2022) 2025 200 ∧
    gainLoss (some 700) (generateSchedule 2000 200 5 2022) 2025 200 = -220 := by
  have h := book_value_at_disposal_and_gain_loss 2000 200 5 2022 2025 700
    (by norm_num) (by norm_num)
  refine ⟨h.1, h.2.1, h.2.2, ?_⟩
  norm_num [generateSchedule, genRows, gainLoss, bookValueAtDisposal]

/-! ### Helper lemmas about the error map -/

theorem zodErrorsToMap_go_find? (p : String) :
    ∀ (issues acc : ErrorMap),
      ((issues.foldl
        (fun errors i =>
          if (errors.find? (fun e => e.1 == i.1)).isSome then errors
          else errors ++ [i]) acc).find? (fun e => e.1 == p)) =
        (acc.find? (fun e => e.1 == p)).or
          (issues.find? (fun e => e.1 == p)) := by
  intro issues
  induction issues with
  | nil =>
    intro acc
    simp
  | cons i rest ih =>
    intro acc
    rw [List.foldl_cons]
    by_cases hin : ((acc.find? (fun e => e.1 == i.1)).isSome : Prop)
    · rw [if_pos hin, ih]
      by_cases hp : i.1 = p
      · subst hp
        obtain ⟨x, hx⟩ := Option.isSome_iff_exists.mp hin
        rw [hx]
        simp
      · rw [List.find?_cons_of_neg]
        simp [hp]
    · rw [if_neg hin, ih, List.find?_append]
      by_cases hp : i.1 = p
      · subst hp
        have hnone : acc.find? (fun e => e.1 == i.1) = none :=
          Option.not_isSome_iff_eq_none.mp hin
        rw [hnone]
        simp
      · have hsingle : ([i].find? (fun e => e.1 == p)) = none := by
          simp [hp]
        rw [hsingle, List.find?_cons_of_neg]
        · simp
        · simp [hp]

theorem zodErrorsToMap_find? (issues : ErrorMap) (p : String) :
    (zodErrorsToMap issues).find? (fun e => e.1 == p) =
      issues.find? (fun e => e.1 == p) := by
  have h := zodErrorsToMap_go_find? p issues []
  simpa [zodErrorsToMap] using h

theorem zodErrorsToMap_go_pairwise :
    ∀ (issues acc : ErrorMap),
      acc.Pairwise (fun e1 e2 => e1.1 ≠ e2.1) →
      ((issues.foldl
        (fun errors i =>
          if (errors.find? (fun e => e.1 == i.1)).isSome then errors
          else errors ++ [i]) acc).Pairwise (fun e1 e2 => e1.1 ≠ e2.1)) := by
  intro issues
  induction issues with
  | nil => intro acc h; simpa using h
  | cons i rest ih =>
    intro acc hacc
    rw [List.foldl_cons]
    by_cases hin : ((acc.find? (fun e => e.1 == i.1)).isSome : Prop)
    · rw [if_pos hin]; exact ih acc hacc
    · rw [if_neg hin]
      apply ih
      rw [List.pairwise_append]
      refine ⟨hacc, List.pairwise_singleton _ _, ?_⟩
      intro x hx y hy
      have hnone : acc.find? (fun e => e.1 == i.1) = none :=
        Option.not_isSome_iff_eq_none.mp hin
      have := List.find?_eq_none.mp hnone x hx
      simp only [List.mem_singleton] at hy
      subst hy
      simpa using this

theorem zodErrorsToMap_pairwise (issues : ErrorMap) :
    (zodErrorsToMap issues).Pairwise (fun e1 e2 => e1.1 ≠ e2.1) :=
  zodErrorsToMap_go_pairwise issues [] List.Pairwise.nil

theorem validateAsset_errMap (a : AssetRec) (t : SimpleDate) :
    (validateAsset a t).errMap = zodErrorsToMap (assetIssues a t) := by
  by_cases h : assetIssues a t = []
  · rw [validateAsset, if_pos h, h]; rfl
  · rw [validateAsset, if_neg h]; simp only [VResult.errMap]

theorem validateCategory_errMap (c : CategoryRec) :
    (validateCategory c).errMap = zodErrorsToMap (categoryIssues c) := by
  by_cases h : categoryIssues c = []
  · rw [validateCategory, if_pos h, h]; rfl
  · rw [validateCategory, if_neg h]; simp only [VResult.errMap]

theorem validateDispose_errMap (dd : String) (dv : Option ℚ) (svc : String)
    (t : SimpleDate) :
    (validateDispose dd dv svc t).errMap =
      zodErrorsToMap (disposeIssues dd dv svc t) := by
  by_cases h : disposeIssues dd dv svc t = []
  · rw [validateDispose, if_pos h, h]; rfl
  · rw [validateDispose, if_neg h]; simp only [VResult.errMap]

/-! ### Claims about the error map and issue collection -/

/-- C10: every error map produced by `validateAsset`, `validateCategory` or
`validateDispose` is `zodErrorsToMap` of the recorded issues, and that map
keeps at most one message per field: its entry for any path is exactly the
first issue recorded for that path, and no path occurs twice. -/
theorem error_map_keeps_first_issue_per_field :
    (∀ (issues : ErrorMap) (p : String),
      (zodErrorsToMap issues).find? (fun e => e.1 == p) =
        issues.find? (fun e => e.1 == p)) ∧
    (∀ issues : ErrorMap,
      (zodErrorsToMap issues).Pairwise (fun e1 e2 => e1.1 ≠ e2.1)) ∧
    (∀ (a : AssetRec) (t : SimpleDate),
      (validateAsset a t).errMap = zodErrorsToMap (assetIssues a t)) ∧
    (∀ c : CategoryRec,
      (validateCategory c).errMap = zodErrorsToMap (categoryIssues c)) ∧
    (∀ (dd : String) (dv : Option ℚ) (svc : String) (t : SimpleDate),
      (validateDispose dd dv svc t).errMap =
        zodErrorsToMap (disposeIssues dd dv svc t)) := by
  exact ⟨zodErrorsToMap_find?, zodErrorsToMap_pairwise, validateAsset_errMap,
    validateCategory_errMap, validateDispose_errMap⟩

/-- C6: `validateAsset` collects all rule violations rather than
short-circuiting: the returned field-keyed error map has an entry for every
field with a recorded issue, including the two cross-field rules
(`salvage_value <= cost`, `disposed_date >= date_placed_in_service`), which
run and report regardless of which other fields are also invalid. -/
theorem all_violated_rules_reported (a : AssetRec) (t : SimpleDate) :
    (∀ p msg, (p, msg) ∈ assetIssues a t →
      (((validateAsset a t).errMap).find? (fun e => e.1 == p)).isSome) ∧
    (¬ a.salvage_value ≤ a.cost →
      (((validateAsset a t).errMap).find?
        (fun e => e.1 == "salvage_value")).isSome) ∧
    (∀ v, a.disposed_date = some v → ¬ v = "" →
      jsDateLeStr a.date_placed_in_service v = false →
      (((validateAsset a t).errMap).find?
        (fun e => e.1 == "disposed_date")).isSome) := by
  have hmain : ∀ p msg, (p, msg) ∈ assetIssues a t →
      (((validateAsset a t).errMap).find? (fun e => e.1 == p)).isSome := by
    intro p msg hmem
    rw [validateAsset_errMap, zodErrorsToMap_find?]
    exact List.find?_isSome.mpr ⟨(p, msg), hmem, by simp⟩
  refine ⟨hmain, ?_, ?_⟩
  · intro hlt
    apply hmain "salvage_value" "Salvage value cannot exceed cost"
    have hx : salvageLeCostIssues a =
        [("salvage_value", "Salvage value cannot exceed cost")] := by
      rw [salvageLeCostIssues, if_neg hlt]
    rw [assetIssues]
    simp [hx]
  · intro v hv hne hfalse
    apply hmain "disposed_date"
      "Disposal date must be on or after the date placed in service"
    have hx : disposedAfterServiceIssues a =
        [("disposed_date",
          "Disposal date must be on or after the date placed in service")] := by
      rw [disposedAfterServiceIssues, hv]
      dsimp only
      rw [if_neg hne, if_neg (by simp [hfalse])]
    rw [assetIssues]
    simp [hx]

/-- Witness for C6: an asset with an invalid cost (0), a salvage value above
cost, and a disposal date before the service date is reported on all three
fields at once. -/
theorem all_violated_rules_reported_witness :
    ((((validateAsset { sampleAsset with
        cost := 0, salvage_value := 50,
        disposed_date := some "2023-01-01" } ⟨2024, 6, 1⟩).errMap).find?
      (fun e => e.1 == "cost")).isSome) ∧
    ((((validateAsset { sampleAsset with
        cost := 0, salvage_value := 50,
        disposed_date := some "2023-01-01" } ⟨2024, 6, 1⟩).errMap).find?
      (fun e => e.1 == "salvage_value")).isSome) ∧
    ((((validateAsset { sampleAsset with
        cost := 0, salvage_value := 50,
        disposed_date := some "2023-01-01" } ⟨2024, 6, 1⟩).errMap).find?
      (fun e => e.1 == "disposed_date")).isSome) := by
  refine ⟨?_, ?_, ?_⟩
  · exact (all_violated_rules_reported _ _).1 "cost"
      "Cost must be greater than $0" (by decide)
  · exact (all_violated_rules_reported _ _).2.1 (by norm_num)
  · exact (all_violated_rules_reported _ _).2.2 "2023-01-01" rfl
      (by decide) (by decide)

/-- C4: for an otherwise-valid candidate asset, `validateAsset` rejects
`salvage_value > cost` (reporting under `salvage_value`), rejects
`salvage_value < 0`, and accepts `salvage_value == cost`. -/
theorem validate_asset_salvage_rules (a : AssetRec) (t : SimpleDate)
    (h : otherFieldsOkForSalvage a t) :
    (a.cost < a.salvage_value →
      validateAsset a t =
        .errs [("salvage_value", "Salvage value cannot exceed cost")]) ∧
    (a.salvage_value < 0 →
      validateAsset a t =
        .errs [("salvage_value", "Salvage value cannot be negative")]) ∧
    (a.salvage_value = a.cost →
      validateAsset a t = .ok (transformAsset a)) := by
  obtain ⟨h1, h2, h3, h4, h5, h6, h7, h8, h9, h10⟩ := h
  have hcost : 0 < a.cost := by
    by_contra hc
    rw [costIssues, if_neg hc] at h4
    exact absurd h4 (by simp)
  refine ⟨?_, ?_, ?_⟩
  · intro hlt
    have hs : salvageIssues a.salvage_value = [] := by
      rw [salvageIssues, if_pos (by linarith)]
    have hx : salvageLeCostIssues a =
        [("salvage_value", "Salvage value cannot exceed cost")] := by
      rw [salvageLeCostIssues, if_neg (not_le.mpr hlt)]
    have hiss : assetIssues a t =
        [("salvage_value", "Salvage value cannot exceed cost")] := by
      rw [assetIssues, h1, h2, h3, h4, hs, h5, h6, h7, h8, h9, hx, h10]
      simp
    rw [validateAsset, if_neg (by rw [hiss]; simp), hiss]
    rfl
  · intro hneg
    have hs : salvageIssues a.salvage_value =
        [("salvage_value", "Salvage value cannot be negative")] := by
      rw [salvageIssues, if_neg (not_le.mpr hneg)]
    have hx : salvageLeCostIssues a = [] := by
      rw [salvageLeCostIssues, if_pos (by linarith)]
    have hiss : assetIssues a t =
        [("salvage_value", "Salvage value cannot be negative")] := by
      rw [assetIssues, h1, h2, h3, h4, hs, h5, h6, h7, h8, h9, hx, h10]
      simp
    rw [validateAsset, if_neg (by rw [hiss]; simp), hiss]
    rfl
  · intro heq
    have hs : salvageIssues a.salvage_value = [] := by
      rw [salvageIssues, if_pos (by rw [heq]; linarith)]
    have hx : salvageLeCostIssues a = [] := by
      rw [salvageLeCostIssues, if_pos (le_of_eq heq)]
    have hiss : assetIssues a t = [] := by
      rw [assetIssues, h1, h2, h3, h4, hs, h5, h6, h7, h8, h9, hx, h10]
      simp
    rw [validateAsset, if_pos hiss]

/-- Witness for C4 at three concrete assets: salvage 2000 against cost 1000
is rejected under `salvage_value`, salvage −100 is rejected, and salvage
equal to cost (1000) is accepted. -/
theorem validate_asset_salvage_rules_witness :
    validateAsset { sampleAsset with salvage_value := 2000 } ⟨2024, 6, 1⟩ =
      .errs [("salvage_value", "Salvage value cannot exceed cost")] ∧
    validateAsset { sampleAsset with salvage_value := -100 } ⟨2024, 6, 1⟩ =
      .errs [("salvage_value", "Salvage value cannot be negative")] ∧
    validateAsset { sampleAsset with salvage_value := 1000 } ⟨2024, 6, 1⟩ =
      .ok (transformAsset { sampleAsset with salvage_value := 1000 }) := by
  refine ⟨?_, ?_, ?_⟩
  · exact (validate_asset_salvage_rules _ _ (by decide)).1
      (by norm_num [sampleAsset])
  · exact (validate_asset_salvage_rules _ _ (by decide)).2.1
      (by norm_num [sampleAsset])
  · exact (validate_asset_salvage_rules _ _ (by decide)).2.2
      (by norm_num [sampleAsset])

/-- Every issue recorded for `useful_life_years` is keyed by that field. -/
theorem usefulLifeIssues_keys (q : ℚ) :
    ∀ x ∈ usefulLifeIssues q, x.1 = "useful_life_years" := by
  intro x hx
  rw [usefulLifeIssues] at hx
  rcases List.mem_append.mp hx with hm | hm
  · by_cases hd : q.den = 1
    · rw [if_pos hd] at hm; simp at hm
    · rw [if_neg hd] at hm
      rw [List.mem_singleton.mp hm]
  · by_cases h1 : 1 ≤ q
    · rw [if_pos h1] at hm; simp at hm
    · rw [if_neg h1] at hm
      rw [List.mem_singleton.mp hm]

/-- C5: for an otherwise-valid candidate asset, `validateAsset` rejects a
`useful_life_years` that is non-positive or not an integer (reporting under
`useful_life_years`), and accepts any integer life ≥ 1. -/
theorem validate_asset_life_rules (a : AssetRec) (t : SimpleDate)
    (h : otherFieldsOkForLife a t) :
    (a.useful_life_years ≤ 0 ∨ a.useful_life_years.den ≠ 1 →
      ∃ m, validateAsset a t = .errs m ∧
        (m.find? (fun e => e.1 == "useful_life_years")).isSome) ∧
    (a.useful_life_years.den = 1 ∧ 1 ≤ a.useful_life_years →
      validateAsset a t = .ok (transformAsset a)) := by
  obtain ⟨h1, h2, h3, h4, h5, h6, h7, h8, h9, h10, h11⟩ := h
  have hiss : assetIssues a t = usefulLifeIssues a.useful_life_years := by
    rw [assetIssues, h1, h2, h3, h4, h5, h6, h7, h8, h9, h10, h11]
    simp
  refine ⟨?_, ?_⟩
  · intro hbad
    have hne : usefulLifeIssues a.useful_life_years ≠ [] := by
      rcases hbad with hb | hb
      · have hn1 : ¬ (1 ≤ a.useful_life_years) := by intro hc; linarith
        rw [usefulLifeIssues, if_neg hn1]
        intro hc
        exact absurd (List.append_eq_nil.mp hc).2 (by simp)
      · rw [usefulLifeIssues, if_neg hb]
        intro hc
        exact absurd (List.append_eq_nil.mp hc).1 (by simp)
    have hanne : assetIssues a t ≠ [] := by rw [hiss]; exact hne
    refine ⟨zodErrorsToMap (assetIssues a t), ?_, ?_⟩
    · rw [validateAsset, if_neg hanne]
    · rw [zodErrorsToMap_find?]
      apply List.find?_isSome.mpr
      obtain ⟨x, hx⟩ := List.exists_mem_of_ne_nil _ hne
      refine ⟨x, ?_, ?_⟩
      · rw [hiss]; exact hx
      · simp [usefulLifeIssues_keys a.useful_life_years x hx]
  · intro ⟨hd, hmin⟩
    have hul : usefulLifeIssues a.useful_life_years = [] := by
      rw [usefulLifeIssues, if_pos hd, if_pos hmin]
      rfl
    rw [validateAsset, if_pos (by rw [hiss]; exact hul)]

/-- Witness for C5 at three concrete assets: life 0 and life 11/2 are
rejected with an error keyed `useful_life_years`; life 1 is accepted. -/
theorem validate_asset_life_rules_witness :
    (∃ m, validateAsset { sampleAsset with useful_life_years := 0 }
        ⟨2024, 6, 1⟩ = .errs m ∧
      (m.find? (fun e => e.1 == "useful_life_years")).isSome) ∧
    (∃ m, validateAsset { sampleAsset with
        useful_life_years := ⟨11, 2, by decide, by decide⟩ }
        ⟨2024, 6, 1⟩ = .errs m ∧
      (m.find? (fun e => e.1 == "useful_life_years")).isSome) ∧
    validateAsset { sampleAsset with useful_life_years := 1 } ⟨2024, 6, 1⟩ =
      .ok (transformAsset { sampleAsset with useful_life_years := 1 }) := by
  refine ⟨?_, ?_, ?_⟩
  · exact (validate_asset_life_rules _ _ (by decide)).1
      (Or.inl (by norm_num [sampleAsset]))
  · exact (validate_asset_life_rules _ _ (by decide)).1 (Or.inr (by decide))
  · exact (validate_asset_life_rules _ _ (by decide)).2
      ⟨by decide, by norm_num [sampleAsset]⟩

/-- C7 (amended): `validateAsset` is deterministic given the candidate asset
and the current date; its dependence on the clock is confined to the
`isNotFutureDate` checks on `date_placed_in_service` and `disposed_date`, so
any two current dates under which those checks agree yield identical
results.  (The source reads the current date from the system clock inside
`isNotFutureDate` rather than taking it as a parameter.) -/
theorem validate_asset_deterministic_given_clock (a : AssetRec)
    (t1 t2 : SimpleDate)
    (h1 : isNotFutureDate a.date_placed_in_service t1 =
      isNotFutureDate a.date_placed_in_service t2)
    (h2 : ∀ v, a.disposed_date = some v →
      isNotFutureDate v t1 = isNotFutureDate v t2) :
    validateAsset a t1 = validateAsset a t2 := by
  have hd : datePlacedIssues a.date_placed_in_service t1 =
      datePlacedIssues a.date_placed_in_service t2 := by
    rw [datePlacedIssues, datePlacedIssues, h1]
  have hdd : disposedDateIssues a.disposed_date t1 =
      disposedDateIssues a.disposed_date t2 := by
    cases hv : a.disposed_date with
    | none => rfl
    | some v =>
      have hv2 := h2 v hv
      simp only [disposedDateIssues]
      rw [hv2]
  have hiss : assetIssues a t1 = assetIssues a t2 := by
    rw [assetIssues, assetIssues, hd, hdd]
  rw [validateAsset, validateAsset, hiss]

/-- Witness for C7's amended claim: two different "today" values on the same
side of the service date give identical validation results. -/
theorem validate_asset_deterministic_given_clock_witness :
    validateAsset sampleAsset ⟨2024, 6, 1⟩ =
      validateAsset sampleAsset ⟨2025, 1, 1⟩ :=
  validate_asset_deterministic_given_clock sampleAsset ⟨2024, 6, 1⟩
    ⟨2025, 1, 1⟩ (by decide) (by intro v hv; simp [sampleAsset] at hv)

/-- Counterexample to C7 as stated: the result of `validateAsset` is not
independent of the wall clock.  The same candidate asset validates
successfully when the current date is 2024-06-01 but is rejected (service
date in the future) when the current date is 2023-12-31, because
`isNotFutureDate` consults the current date, which the source reads from the
system clock via `new Date()` rather than receiving as a parameter. -/
theorem validate_asset_depends_on_clock :
    validateAsset sampleAsset ⟨2024, 6, 1⟩ ≠
      validateAsset sampleAsset ⟨2023, 12, 31⟩ := by
  decide

/-- Lemma: `parseDate` only succeeds on non-empty (ten-character) strings. -/
theorem parseDate_some_length {s : String} {d : SimpleDate}
    (h : parseDate s = some d) : 1 ≤ s.length := by
  by_contra hc
  cases s with
  | mk data =>
    have h0 : data.length = 0 := by
      have hc2 : ¬ 1 ≤ data.length := hc
      omega
    have hdata : data = [] := List.length_eq_zero.mp h0
    subst hdata
    have hnone : parseDate (String.mk []) = none := rfl
    rw [hnone] at h
    exact Option.noConfusion h

/-- C8: assuming the asset's service date parses (it comes from a validated
asset), `validateDispose` accepts exactly when the disposal date parses as a
calendar date, is not after today, and is on or after the service date
(equality accepted), and any provided disposal value is ≥ 0; no upper bound
is imposed on the disposal value. -/
theorem validate_dispose_spec (dd : String) (dv : Option ℚ) (svc : String)
    (t sd : SimpleDate) (hsvc : parseDate svc = some sd) :
    (validateDispose dd dv svc t).isOk = true ↔
      (∃ pd, parseDate dd = some pd ∧ dateLe pd t = true ∧
        dateLe sd pd = true) ∧ (∀ v, dv = some v → 0 ≤ v) := by
  have hok : (validateDispose dd dv svc t).isOk = true ↔
      disposeIssues dd dv svc t = [] := by
    by_cases h : disposeIssues dd dv svc t = []
    · rw [validateDispose, if_pos h]
      simp [VResult.isOk, h]
    · rw [validateDispose, if_neg h]
      simp [VResult.isOk, h]
  rw [hok]
  unfold disposeIssues
  simp only [List.append_eq_nil]
  constructor
  · intro h
    obtain ⟨⟨⟨⟨hA, hB⟩, hC⟩, hD⟩, hE⟩ := h
    have hvalid : isValidDate dd = true := by
      by_contra hv
      rw [if_neg hv] at hB
      exact absurd hB (by simp)
    obtain ⟨pd, hpd⟩ := Option.isSome_iff_exists.mp
      (by rw [isValidDate] at hvalid; exact hvalid)
    refine ⟨⟨pd, hpd, ?_, ?_⟩, ?_⟩
    · by_contra hle
      have hf : isNotFutureDate dd t = false := by
        rw [isNotFutureDate, hpd]
        dsimp only
        exact Bool.eq_false_iff.mpr hle
      rw [if_neg (by simp [hf])] at hC
      exact absurd hC (by simp)
    · by_contra hle
      have hf : jsDateLeStr svc dd = false := by
        rw [jsDateLeStr, hsvc, hpd]
        dsimp only
        exact Bool.eq_false_iff.mpr hle
      rw [if_neg (by simp [hf])] at hE
      exact absurd hE (by simp)
    · intro v hv
      subst hv
      by_contra hneg
      dsimp only at hD
      rw [if_neg hneg] at hD
      exact absurd hD (by simp)
  · intro ⟨⟨pd, hpd, hle1, hle2⟩, hv⟩
    have hA : 1 ≤ dd.length := parseDate_some_length hpd
    have hB : isValidDate dd = true := by
      rw [isValidDate, hpd]; rfl
    have hC : isNotFutureDate dd t = true := by
      rw [isNotFutureDate, hpd]; dsimp only; exact hle1
    have hE : jsDateLeStr svc dd = true := by
      rw [jsDateLeStr, hsvc, hpd]; dsimp only; exact hle2
    refine ⟨⟨⟨⟨if_pos hA, if_pos hB⟩, if_pos hC⟩, ?_⟩, if_pos hE⟩
    cases dv with
    | none => rfl
    | some v =>
      exact if_pos (hv v rfl)

/-- Witness for C8: disposal on the service date itself with proceeds of
999999 (far above any cost — `validateDispose` never sees the cost) is
accepted. -/
theorem validate_dispose_spec_witness :
    (validateDispose "2024-01-15" (some 999999) "2024-01-15"
      ⟨2024, 12, 31⟩).isOk = true :=
  (validate_dispose_spec "2024-01-15" (some 999999) "2024-01-15"
      ⟨2024, 12, 31⟩ ⟨2024, 1, 15⟩ (by decide)).mpr
    ⟨⟨⟨2024, 1, 15⟩, by decide, by decide, by decide⟩,
     by
      intro v hv
      simp only [Option.some.injEq] at hv
      rw [← hv]
      norm_num⟩
